import Mathlib

/-!
Verification of the Fermi market-making round engine (src/engine.py,
src/models.py). Quotes and derived metrics are embedded as rationals;
the language-model capability (OpenRouterClient.chat) is an external
boundary, so each engine operation takes the outcome of its single chat
call as an explicit argument: `Except.ok text` for a generated response,
`Except.error msg` for an upstream failure (the RuntimeError raised by
the client). Python's in-place mutation of the stored session is modelled
by returning the whole engine state alongside the operation's result, so
mutations performed before a failing chat call persist, exactly as in the
source. Session ids are modelled as naturals handed out by a counter
(uuid4 in the source); the session dict is an association list in which
creation prepends and update replaces the entry the lookup would find.
-/

namespace Fermi

/-- Python `str.strip()`: drop whitespace from both ends (on char lists). -/
def pystrip (s : List Char) : List Char :=
  ((s.dropWhile Char.isWhitespace).reverse.dropWhile Char.isWhitespace).reverse

/-- Python `str.lower()` (on char lists). -/
def lowerList (s : List Char) : List Char :=
  s.map Char.toLower

/-- Python `str.splitlines()` restricted to the newline character:
split on each newline, with no trailing empty line and `[]` for the
empty string. -/
def splitlinesAux : List Char → List Char → List (List Char)
  | [], acc => [acc.reverse]
  | c :: rest, acc =>
    if c = '\n' then
      acc.reverse :: (if rest.isEmpty then [] else splitlinesAux rest [])
    else
      splitlinesAux rest (c :: acc)

def splitlines (s : List Char) : List (List Char) :=
  if s.isEmpty then [] else splitlinesAux s []

/-- Index of the first occurrence of `key` as a contiguous substring,
Python `str.index`; `none` when absent (Python `in` is `isSome`). -/
def findSubstrIdx (key : List Char) : List Char → Option Nat
  | [] => if key.isEmpty then some 0 else none
  | c :: rest =>
    if key.isPrefixOf (c :: rest) then some 0
    else (findSubstrIdx key rest).map (fun n => n + 1)

/-- Python `key in s` on char lists. -/
def containsSub (key s : List Char) : Bool :=
  (findSubstrIdx key s).isSome

-- ---------- data model (src/models.py) ----------

structure CandidateQuote where
  bid : ℚ
  ask : ℚ
  rationale : Option String
deriving DecidableEq

structure RoundReport where
  round_index : Nat
  bid : ℚ
  ask : ℚ
  mid : ℚ
  width : ℚ
  width_pct_of_bid : ℚ
  hint_or_reveal : Option String
  coaching_or_teaching : Option String
  final_report : Option String
deriving DecidableEq

structure SessionState where
  session_id : Nat
  question : String
  round_number : Nat
  quotes : List CandidateQuote
  reports : List RoundReport
  final_done : Bool
deriving DecidableEq

-- ---------- basic metrics (src/engine.py lines 11-20) ----------

def _calc_mid (bid ask : ℚ) : ℚ :=
  (bid + ask) / 2

def _calc_width (bid ask : ℚ) : ℚ :=
  max 0 (ask - bid)

def _calc_width_pct_of_bid (bid width : ℚ) : ℚ :=
  if bid ≤ 0 then 0 else 100 * width / bid

-- ---------- parsing helpers (src/engine.py lines 39-73) ----------

def hintKey : List Char := "hint:".toList

def coachKey : List Char := "coaching:".toList

inductive Which
  | hint
  | coach
deriving DecidableEq

/-- The line loop of `_split_hint_and_coaching`: label lines switch the
open bucket (`continue`), other lines are appended to the open bucket,
lines before the first label are dropped. -/
def splitLoop : List (List Char) → List (List Char) → List (List Char) →
    Option Which → List (List Char) × List (List Char)
  | [], hintAcc, coachAcc, _ => (hintAcc.reverse, coachAcc.reverse)
  | line :: rest, hintAcc, coachAcc, which =>
    let ll := lowerList (pystrip line)
    if hintKey.isPrefixOf ll then
      splitLoop rest hintAcc coachAcc (some Which.hint)
    else if coachKey.isPrefixOf ll then
      splitLoop rest hintAcc coachAcc (some Which.coach)
    else
      match which with
      | some Which.hint => splitLoop rest (line :: hintAcc) coachAcc which
      | some Which.coach => splitLoop rest hintAcc (line :: coachAcc) which
      | none => splitLoop rest hintAcc coachAcc which

/-- The guard of `_split_hint_and_coaching`: both `"hint:"` and
`"coaching:"` occur as substrings of the lowercased content. -/
def bothLabels (content : String) : Bool :=
  containsSub hintKey (lowerList content.toList) &&
    containsSub coachKey (lowerList content.toList)

/-- src/engine.py `_split_hint_and_coaching`. -/
def _split_hint_and_coaching (content : String) : String × String :=
  if bothLabels content then
    let p := splitLoop (splitlines content.toList) [] [] none
    (String.mk (pystrip (List.intercalate ['\n'] p.1)),
     String.mk (pystrip (List.intercalate ['\n'] p.2)))
  else
    (String.mk (pystrip content.toList), "")

def finalKey : List Char := "final report:".toList

/-- src/engine.py `_extract_final_report`. -/
def _extract_final_report (content : String) : String :=
  match findSubstrIdx finalKey (lowerList content.toList) with
  | some i => String.mk (pystrip (content.toList.drop i))
  | none => String.mk (pystrip content.toList)

-- ---------- engine state (FermiGameEngine) ----------

inductive EngineError
  | NotFound
  | AlreadyFinalized
  | RoundExhausted
  | InvalidQuote
  | UpstreamFailure (msg : String)
deriving DecidableEq

structure EngineState where
  nextId : Nat
  sessions : List (Nat × SessionState)
deriving DecidableEq

def initState : EngineState :=
  { nextId := 0, sessions := [] }

/-- Dict lookup: the entry creation/update sees (newest entries sit at
the head of the list). -/
def lookupSession : List (Nat × SessionState) → Nat → Option SessionState
  | [], _ => none
  | (k, st) :: rest, sid => if k = sid then some st else lookupSession rest sid

/-- Dict update of an existing key (replaces the entry `lookupSession`
finds; appends when the key is absent). -/
def setSession : List (Nat × SessionState) → Nat → SessionState →
    List (Nat × SessionState)
  | [], sid, st => [(sid, st)]
  | (k, st0) :: rest, sid, st =>
    if k = sid then (sid, st) :: rest else (k, st0) :: setSession rest sid st

/-- src/engine.py `FermiGameEngine.start_session`. -/
def start_session (es : EngineState) (question : String) :
    EngineState × SessionState :=
  let st : SessionState :=
    { session_id := es.nextId, question := question, round_number := 0,
      quotes := [], reports := [], final_done := false }
  ({ nextId := es.nextId + 1, sessions := (es.nextId, st) :: es.sessions }, st)

/-- src/engine.py `FermiGameEngine.get_state`. -/
def get_state (es : EngineState) (session_id : Nat) : Option SessionState :=
  lookupSession es.sessions session_id

/-- src/engine.py `FermiGameEngine.submit_quote` (rounds 1-3). `chat` is
the outcome of the `self.client.chat(...)` call made after the state has
been advanced; when it fails, the already-performed mutations persist. -/
def submit_quote (es : EngineState) (session_id : Nat) (bid ask : ℚ)
    (rationale : Option String) (chat : Except String String) :
    EngineState × Except EngineError RoundReport :=
  match lookupSession es.sessions session_id with
  | none => (es, Except.error EngineError.NotFound)
  | some st =>
    if st.final_done then
      (es, Except.error EngineError.AlreadyFinalized)
    else if st.round_number ≥ 3 then
      (es, Except.error EngineError.RoundExhausted)
    else if bid ≤ 0 ∨ ask ≤ 0 ∨ ask < bid then
      (es, Except.error EngineError.InvalidQuote)
    else
      let st1 : SessionState :=
        { st with round_number := st.round_number + 1,
                  quotes := st.quotes ++
                    [{ bid := bid, ask := ask, rationale := rationale }] }
      match chat with
      | Except.error m =>
        ({ es with sessions := setSession es.sessions session_id st1 },
         Except.error (EngineError.UpstreamFailure m))
      | Except.ok content =>
        let hc := _split_hint_and_coaching content
        let report : RoundReport :=
          { round_index := st1.round_number, bid := bid, ask := ask,
            mid := _calc_mid bid ask, width := _calc_width bid ask,
            width_pct_of_bid := _calc_width_pct_of_bid bid (_calc_width bid ask),
            hint_or_reveal := some hc.1, coaching_or_teaching := some hc.2,
            final_report := none }
        let st2 : SessionState := { st1 with reports := st1.reports ++ [report] }
        ({ es with sessions := setSession es.sessions session_id st2 },
         Except.ok report)

/-- src/engine.py `FermiGameEngine.finalize_round4` (round 4); same
conventions as `submit_quote`. -/
def finalize_round4 (es : EngineState) (session_id : Nat) (bid ask : ℚ)
    (rationale : Option String) (chat : Except String String) :
    EngineState × Except EngineError RoundReport :=
  match lookupSession es.sessions session_id with
  | none => (es, Except.error EngineError.NotFound)
  | some st =>
    if st.final_done then
      (es, Except.error EngineError.AlreadyFinalized)
    else if bid ≤ 0 ∨ ask ≤ 0 ∨ ask < bid then
      (es, Except.error EngineError.InvalidQuote)
    else
      let st1 : SessionState :=
        { st with round_number := 4,
                  quotes := st.quotes ++
                    [{ bid := bid, ask := ask, rationale := rationale }] }
      match chat with
      | Except.error m =>
        ({ es with sessions := setSession es.sessions session_id st1 },
         Except.error (EngineError.UpstreamFailure m))
      | Except.ok content =>
        let report : RoundReport :=
          { round_index := 4, bid := bid, ask := ask,
            mid := _calc_mid bid ask, width := _calc_width bid ask,
            width_pct_of_bid := _calc_width_pct_of_bid bid (_calc_width bid ask),
            hint_or_reveal := none, coaching_or_teaching := none,
            final_report := some (_extract_final_report content) }
        let st2 : SessionState :=
          { st1 with final_done := true, reports := st1.reports ++ [report] }
        ({ es with sessions := setSession es.sessions session_id st2 },
         Except.ok report)

-- ---------- derived shapes of the success branches ----------

/-- The report `submit_quote` appends on success (round n, chat text t). -/
def submitReport (n : Nat) (bid ask : ℚ) (t : String) : RoundReport :=
  { round_index := n, bid := bid, ask := ask,
    mid := _calc_mid bid ask, width := _calc_width bid ask,
    width_pct_of_bid := _calc_width_pct_of_bid bid (_calc_width bid ask),
    hint_or_reveal := some (_split_hint_and_coaching t).1,
    coaching_or_teaching := some (_split_hint_and_coaching t).2,
    final_report := none }

/-- The report `finalize_round4` appends on success. -/
def finalReport (bid ask : ℚ) (t : String) : RoundReport :=
  { round_index := 4, bid := bid, ask := ask,
    mid := _calc_mid bid ask, width := _calc_width bid ask,
    width_pct_of_bid := _calc_width_pct_of_bid bid (_calc_width bid ask),
    hint_or_reveal := none, coaching_or_teaching := none,
    final_report := some (_extract_final_report t) }

/-- The session after a successful `submit_quote`. -/
def submitOkSession (st : SessionState) (bid ask : ℚ) (r : Option String)
    (t : String) : SessionState :=
  { st with round_number := st.round_number + 1,
            quotes := st.quotes ++ [{ bid := bid, ask := ask, rationale := r }],
            reports := st.reports ++ [submitReport (st.round_number + 1) bid ask t] }

/-- The session left behind when `submit_quote` fails upstream: the
round was advanced and the quote appended, but no report recorded. -/
def submitUpstreamSession (st : SessionState) (bid ask : ℚ)
    (r : Option String) : SessionState :=
  { st with round_number := st.round_number + 1,
            quotes := st.quotes ++ [{ bid := bid, ask := ask, rationale := r }] }

/-- The session after a successful `finalize_round4`. -/
def finalizeOkSession (st : SessionState) (bid ask : ℚ) (r : Option String)
    (t : String) : SessionState :=
  { st with round_number := 4, final_done := true,
            quotes := st.quotes ++ [{ bid := bid, ask := ask, rationale := r }],
            reports := st.reports ++ [finalReport bid ask t] }

/-- The session left behind when `finalize_round4` fails upstream. -/
def finalizeUpstreamSession (st : SessionState) (bid ask : ℚ)
    (r : Option String) : SessionState :=
  { st with round_number := 4,
            quotes := st.quotes ++ [{ bid := bid, ask := ask, rationale := r }] }

-- ---------- the spec's description of the hint/coaching line scan ----------

/-- Modelled from the spec's wording of the line scan: a line whose
trimmed, case-insensitive form starts with the label opens that label's
bucket, and following lines accumulate into the open bucket until the
next label line; lines before the first label belong to no bucket. -/
def specScanAux : List (List Char) → Option Which →
    List (List Char) × List (List Char)
  | [], _ => ([], [])
  | line :: rest, opened =>
    let t := lowerList (pystrip line)
    if hintKey.isPrefixOf t then specScanAux rest (some Which.hint)
    else if coachKey.isPrefixOf t then specScanAux rest (some Which.coach)
    else
      match opened with
      | some Which.hint =>
        (line :: (specScanAux rest opened).1, (specScanAux rest opened).2)
      | some Which.coach =>
        ((specScanAux rest opened).1, line :: (specScanAux rest opened).2)
      | none => specScanAux rest opened

/-- The hint/coaching pair the spec's line scan produces (buckets joined
by newlines and trimmed). -/
def specSplit (content : String) : String × String :=
  let p := specScanAux (splitlines content.toList) none
  (String.mk (pystrip (List.intercalate ['\n'] p.1)),
   String.mk (pystrip (List.intercalate ['\n'] p.2)))

-- ---------- predicates used by the invariants ----------

/-- Every stored session has at least as many quotes as reports. -/
def reportsBalanced (es : EngineState) : Prop :=
  ∀ sid st, get_state es sid = some st → st.reports.length ≤ st.quotes.length

/-- The round-specific content shape of a report: rounds 1-3 carry hint
and coaching and no final report, round 4 carries only a final report;
the two shapes are never both populated. -/
def reportShapeOK (rep : RoundReport) : Prop :=
  (1 ≤ rep.round_index ∧ rep.round_index ≤ 4) ∧
  (rep.round_index ≤ 3 →
    rep.final_report = none ∧ rep.hint_or_reveal.isSome = true ∧
      rep.coaching_or_teaching.isSome = true) ∧
  (rep.round_index = 4 →
    rep.hint_or_reveal = none ∧ rep.coaching_or_teaching = none ∧
      rep.final_report.isSome = true) ∧
  ¬(rep.hint_or_reveal.isSome = true ∧ rep.final_report.isSome = true)

/-- Every report of every stored session has the correct content shape. -/
def sessionReportsOK (es : EngineState) : Prop :=
  ∀ sid st, get_state es sid = some st → ∀ rep ∈ st.reports, reportShapeOK rep

/-- Both mutating operations on `sid` fail with `AlreadyFinalized` and
leave the engine state untouched. -/
def alwaysAlreadyFinalized (es : EngineState) (sid : Nat) : Prop :=
  ∀ bid ask r chat,
    submit_quote es sid bid ask r chat =
      (es, Except.error EngineError.AlreadyFinalized) ∧
    finalize_round4 es sid bid ask r chat =
      (es, Except.error EngineError.AlreadyFinalized)

/-- `get_state` still succeeds on `sid` and the returned terminal
session contains the report `rep`. -/
def stateHasFinalReport (es : EngineState) (sid : Nat) (rep : RoundReport) : Prop :=
  ∃ st, get_state es sid = some st ∧ st.final_done = true ∧ rep ∈ st.reports

-- ---------- concrete states used by witnesses and counterexamples ----------

/-- One fresh session (id 0, round 0). -/
def es1 : EngineState := (start_session initState "q").1

/-- The fresh session object stored in `es1`. -/
def st0 : SessionState := (start_session initState "q").2

/-- The fresh session finalized at once with the quote 2/2 and chat
response "r". -/
def esF : EngineState := (finalize_round4 es1 0 2 2 none (Except.ok "r")).1

/-- The fresh session after one successful quote 10/20 with chat
response "Hint: a\nCoaching: b". -/
def es2 : EngineState :=
  (submit_quote es1 0 10 20 none (Except.ok "Hint: a\nCoaching: b")).1

/-- The C5 scenario: start a session, submit three quotes with
successful chat calls, then attempt a fourth submit_quote; the tuple
collects the four results and the session's round_number after each of
the three successful rounds. -/
def c5chain (es : EngineState) (q : String) (b1 a1 b2 a2 b3 a3 b4 a4 : ℚ)
    (r1 r2 r3 r4 : Option String) (t1 t2 t3 : String)
    (chat4 : Except String String) :
    Except EngineError RoundReport × Except EngineError RoundReport ×
      Except EngineError RoundReport × Except EngineError RoundReport ×
      Option Nat × Option Nat × Option Nat :=
  let s0 := start_session es q
  let sid := s0.2.session_id
  let o1 := submit_quote s0.1 sid b1 a1 r1 (Except.ok t1)
  let o2 := submit_quote o1.1 sid b2 a2 r2 (Except.ok t2)
  let o3 := submit_quote o2.1 sid b3 a3 r3 (Except.ok t3)
  let o4 := submit_quote o3.1 sid b4 a4 r4 chat4
  (o1.2, o2.2, o3.2, o4.2,
   (get_state o1.1 sid).map SessionState.round_number,
   (get_state o2.1 sid).map SessionState.round_number,
   (get_state o3.1 sid).map SessionState.round_number)

/-- Engine states reachable from a fresh engine through the public
operations, with arbitrary chat outcomes. -/
inductive Reachable : EngineState → Prop
  | init : Reachable initState
  | start (es : EngineState) (q : String) :
      Reachable es → Reachable (start_session es q).1
  | submit (es : EngineState) (sid : Nat) (bid ask : ℚ) (r : Option String)
      (chat : Except String String) :
      Reachable es → Reachable (submit_quote es sid bid ask r chat).1
  | finalize (es : EngineState) (sid : Nat) (bid ask : ℚ) (r : Option String)
      (chat : Except String String) :
      Reachable es → Reachable (finalize_round4 es sid bid ask r chat).1

-- ---------- store lemmas ----------

theorem lookup_setSession (l : List (Nat × SessionState)) (k sid : Nat)
    (v : SessionState) :
    lookupSession (setSession l k v) sid =
      if sid = k then some v else lookupSession l sid := by
  induction l with
  | nil =>
    by_cases h : sid = k
    · subst h; simp [setSession, lookupSession]
    · have h' : ¬ k = sid := fun hh => h hh.symm
      simp [setSession, lookupSession, h, h']
  | cons p rest ih =>
    obtain ⟨k0, st0⟩ := p
    by_cases hk : k0 = k
    · subst hk
      by_cases h : sid = k0
      · subst h; simp [setSession, lookupSession]
      · have h' : ¬ k0 = sid := fun hh => h hh.symm
        simp [setSession, lookupSession, h, h']
    · by_cases h0 : k0 = sid
      · subst h0
        simp [setSession, lookupSession, hk]
      · simp [setSession, lookupSession, hk, h0, ih]

-- ---------- strip lemmas ----------

theorem mem_dropWhile_of_not (p : Char → Bool) (c : Char) :
    ∀ s : List Char, c ∈ s → p c = false → c ∈ s.dropWhile p := by
  intro s
  induction s with
  | nil => intro h; cases h
  | cons a rest ih =>
    intro hmem hpc
    by_cases hpa : p a = true
    · rcases List.mem_cons.mp hmem with h | h
      · subst h; rw [hpc] at hpa; cases hpa
      · rw [List.dropWhile_cons, hpa]
        simpa using ih h hpc
    · rw [List.dropWhile_cons, Bool.not_eq_true] at *
      rw [hpa]
      simpa using hmem

theorem pystrip_ne_nil (s : List Char) (c : Char) (hmem : c ∈ s)
    (hws : c.isWhitespace = false) : pystrip s ≠ [] := by
  intro h
  unfold pystrip at h
  rw [List.reverse_eq_nil_iff, List.dropWhile_eq_nil_iff] at h
  have h1 : c ∈ s.dropWhile Char.isWhitespace :=
    mem_dropWhile_of_not Char.isWhitespace c s hmem hws
  have h2 : c ∈ (s.dropWhile Char.isWhitespace).reverse :=
    List.mem_reverse.mpr h1
  have := h c h2
  rw [hws] at this
  cases this

theorem stringMk_ne_empty (l : List Char) (h : l ≠ []) : String.mk l ≠ "" := by
  intro he
  exact h (congrArg String.data he)

-- ---------- substring search lemmas ----------

theorem findSubstrIdx_some_spec (key : List Char) :
    ∀ (s : List Char) (i : Nat), findSubstrIdx key s = some i →
      key.isPrefixOf (s.drop i) = true ∧
        ∀ j, j < i → key.isPrefixOf (s.drop j) = false := by
  intro s
  induction s with
  | nil =>
    intro i h
    unfold findSubstrIdx at h
    by_cases hk : key.isEmpty
    · rw [if_pos hk] at h
      obtain rfl : i = 0 := by simpa using h.symm
      rw [List.isEmpty_iff] at hk
      subst hk
      exact ⟨rfl, fun j hj => absurd hj (Nat.not_lt_zero j)⟩
    · rw [if_neg hk] at h; cases h
  | cons a rest ih =>
    intro i h
    unfold findSubstrIdx at h
    by_cases hp : key.isPrefixOf (a :: rest) = true
    · rw [if_pos hp] at h
      obtain rfl : i = 0 := by simpa using h.symm
      exact ⟨hp, fun j hj => absurd hj (Nat.not_lt_zero j)⟩
    · rw [if_neg hp] at h
      rcases Option.map_eq_some'.mp h with ⟨i', hi', rfl⟩
      obtain ⟨h1, h2⟩ := ih i' hi'
      refine ⟨by simpa [List.drop_succ_cons] using h1, ?_⟩
      intro j hj
      cases j with
      | zero => simpa using Bool.not_eq_true _ |>.mp hp
      | succ j' =>
        rw [List.drop_succ_cons]
        exact h2 j' (Nat.lt_of_succ_lt_succ hj)

theorem findSubstrIdx_none_spec (key : List Char) (hk : key ≠ []) :
    ∀ s : List Char, findSubstrIdx key s = none →
      ∀ j, key.isPrefixOf (s.drop j) = false := by
  intro s
  induction s with
  | nil =>
    intro h j
    rw [List.drop_nil]
    cases key with
    | nil => exact absurd rfl hk
    | cons a t => rfl
  | cons a rest ih =>
    intro h j
    unfold findSubstrIdx at h
    by_cases hp : key.isPrefixOf (a :: rest) = true
    · rw [if_pos hp] at h; cases h
    · rw [if_neg hp] at h
      cases j with
      | zero => simpa using Bool.not_eq_true _ |>.mp hp
      | succ j' =>
        rw [List.drop_succ_cons]
        exact ih (by simpa using h) j'

-- ---------- the code's line loop matches the spec's line scan ----------

theorem splitLoop_eq_specScan :
    ∀ (lines hintAcc coachAcc : List (List Char)) (w : Option Which),
      splitLoop lines hintAcc coachAcc w =
        (hintAcc.reverse ++ (specScanAux lines w).1,
         coachAcc.reverse ++ (specScanAux lines w).2) := by
  intro lines
  induction lines with
  | nil => intro hintAcc coachAcc w; simp [splitLoop, specScanAux]
  | cons line rest ih =>
    intro hintAcc coachAcc w
    by_cases hh : hintKey.isPrefixOf (lowerList (pystrip line)) = true
    · simp only [splitLoop, specScanAux, hh, if_true]
      exact ih hintAcc coachAcc (some Which.hint)
    · by_cases hc : coachKey.isPrefixOf (lowerList (pystrip line)) = true
      · simp only [splitLoop, specScanAux, hh, hc, if_false, if_true]
        exact ih hintAcc coachAcc (some Which.coach)
      · match w with
        | some Which.hint =>
          simp only [splitLoop, specScanAux, hh, hc, if_false]
          rw [ih (line :: hintAcc) coachAcc (some Which.hint)]
          simp
        | some Which.coach =>
          simp only [splitLoop, specScanAux, hh, hc, if_false]
          rw [ih hintAcc (line :: coachAcc) (some Which.coach)]
          simp
        | none =>
          simp only [splitLoop, specScanAux, hh, hc, if_false]
          exact ih hintAcc coachAcc none

-- ---------- branch characterizations of submit_quote ----------

theorem submit_quote_not_found (es : EngineState) (sid : Nat) (bid ask : ℚ)
    (r : Option String) (chat : Except String String)
    (h : lookupSession es.sessions sid = none) :
    submit_quote es sid bid ask r chat =
      (es, Except.error EngineError.NotFound) := by
  simp [submit_quote, h]

theorem submit_quote_finalized (es : EngineState) (sid : Nat) (bid ask : ℚ)
    (r : Option String) (chat : Except String String) (st : SessionState)
    (h : lookupSession es.sessions sid = some st)
    (hf : st.final_done = true) :
    submit_quote es sid bid ask r chat =
      (es, Except.error EngineError.AlreadyFinalized) := by
  simp [submit_quote, h, hf]

theorem submit_quote_exhausted (es : EngineState) (sid : Nat) (bid ask : ℚ)
    (r : Option String) (chat : Except String String) (st : SessionState)
    (h : lookupSession es.sessions sid = some st)
    (hf : st.final_done = false) (hr : 3 ≤ st.round_number) :
    submit_quote es sid bid ask r chat =
      (es, Except.error EngineError.RoundExhausted) := by
  simp [submit_quote, h, hf, hr]

theorem submit_quote_invalid (es : EngineState) (sid : Nat) (bid ask : ℚ)
    (r : Option String) (chat : Except String String) (st : SessionState)
    (h : lookupSession es.sessions sid = some st)
    (hf : st.final_done = false) (hr : st.round_number < 3)
    (hq : bid ≤ 0 ∨ ask ≤ 0 ∨ ask < bid) :
    submit_quote es sid bid ask r chat =
      (es, Except.error EngineError.InvalidQuote) := by
  have hr' : ¬ st.round_number ≥ 3 := by omega
  simp [submit_quote, h, hf, hr', hq]

theorem submit_quote_upstream (es : EngineState) (sid : Nat) (bid ask : ℚ)
    (r : Option String) (m : String) (st : SessionState)
    (h : lookupSession es.sessions sid = some st)
    (hf : st.final_done = false) (hr : st.round_number < 3)
    (hb : 0 < bid) (ha : bid ≤ ask) :
    submit_quote es sid bid ask r (Except.error m) =
      ({ es with sessions :=
          setSession es.sessions sid (submitUpstreamSession st bid ask r) },
       Except.error (EngineError.UpstreamFailure m)) := by
  have hr' : ¬ st.round_number ≥ 3 := by omega
  have hq : ¬ (bid ≤ 0 ∨ ask ≤ 0 ∨ ask < bid) := by
    push_neg
    exact ⟨hb, lt_of_lt_of_le hb ha, ha⟩
  simp [submit_quote, h, hf, hr', hq, submitUpstreamSession]

theorem submit_quote_ok (es : EngineState) (sid : Nat) (bid ask : ℚ)
    (r : Option String) (t : String) (st : SessionState)
    (h : lookupSession es.sessions sid = some st)
    (hf : st.final_done = false) (hr : st.round_number < 3)
    (hb : 0 < bid) (ha : bid ≤ ask) :
    submit_quote es sid bid ask r (Except.ok t) =
      ({ es with sessions :=
          setSession es.sessions sid (submitOkSession st bid ask r t) },
       Except.ok (submitReport (st.round_number + 1) bid ask t)) := by
  have hr' : ¬ st.round_number ≥ 3 := by omega
  have hq : ¬ (bid ≤ 0 ∨ ask ≤ 0 ∨ ask < bid) := by
    push_neg
    exact ⟨hb, lt_of_lt_of_le hb ha, ha⟩
  simp [submit_quote, h, hf, hr', hq, submitOkSession, submitReport]

-- ---------- branch characterizations of finalize_round4 ----------

theorem finalize_not_found (es : EngineState) (sid : Nat) (bid ask : ℚ)
    (r : Option String) (chat : Except String String)
    (h : lookupSession es.sessions sid = none) :
    finalize_round4 es sid bid ask r chat =
      (es, Except.error EngineError.NotFound) := by
  simp [finalize_round4, h]

theorem finalize_finalized (es : EngineState) (sid : Nat) (bid ask : ℚ)
    (r : Option String) (chat : Except String String) (st : SessionState)
    (h : lookupSession es.sessions sid = some st)
    (hf : st.final_done = true) :
    finalize_round4 es sid bid ask r chat =
      (es, Except.error EngineError.AlreadyFinalized) := by
  simp [finalize_round4, h, hf]

theorem finalize_invalid (es : EngineState) (sid : Nat) (bid ask : ℚ)
    (r : Option String) (chat : Except String String) (st : SessionState)
    (h : lookupSession es.sessions sid = some st)
    (hf : st.final_done = false)
    (hq : bid ≤ 0 ∨ ask ≤ 0 ∨ ask < bid) :
    finalize_round4 es sid bid ask r chat =
      (es, Except.error EngineError.InvalidQuote) := by
  simp [finalize_round4, h, hf, hq]

theorem finalize_upstream (es : EngineState) (sid : Nat) (bid ask : ℚ)
    (r : Option String) (m : String) (st : SessionState)
    (h : lookupSession es.sessions sid = some st)
    (hf : st.final_done = false) (hb : 0 < bid) (ha : bid ≤ ask) :
    finalize_round4 es sid bid ask r (Except.error m) =
      ({ es with sessions :=
          setSession es.sessions sid (finalizeUpstreamSession st bid ask r) },
       Except.error (EngineError.UpstreamFailure m)) := by
  have hq : ¬ (bid ≤ 0 ∨ ask ≤ 0 ∨ ask < bid) := by
    push_neg
    exact ⟨hb, lt_of_lt_of_le hb ha, ha⟩
  simp [finalize_round4, h, hf, hq, finalizeUpstreamSession]

theorem finalize_ok (es : EngineState) (sid : Nat) (bid ask : ℚ)
    (r : Option String) (t : String) (st : SessionState)
    (h : lookupSession es.sessions sid = some st)
    (hf : st.final_done = false) (hb : 0 < bid) (ha : bid ≤ ask) :
    finalize_round4 es sid bid ask r (Except.ok t) =
      ({ es with sessions :=
          setSession es.sessions sid (finalizeOkSession st bid ask r t) },
       Except.ok (finalReport bid ask t)) := by
  have hq : ¬ (bid ≤ 0 ∨ ask ≤ 0 ∨ ask < bid) := by
    push_neg
    exact ⟨hb, lt_of_lt_of_le hb ha, ha⟩
  simp [finalize_round4, h, hf, hq, finalizeOkSession, finalReport]

-- ---------- failing calls other than upstream leave the state intact ----------

theorem submit_error_state (es : EngineState) (sid : Nat) (bid ask : ℚ)
    (r : Option String) (chat : Except String String) (e : EngineError)
    (h : (submit_quote es sid bid ask r chat).2 = Except.error e)
    (hne : ∀ m, e ≠ EngineError.UpstreamFailure m) :
    (submit_quote es sid bid ask r chat).1 = es := by
  cases hl : lookupSession es.sessions sid with
  | none => rw [submit_quote_not_found es sid bid ask r chat hl]
  | some st =>
    by_cases hf : st.final_done = true
    · rw [submit_quote_finalized es sid bid ask r chat st hl hf]
    · have hf' : st.final_done = false := by simpa using hf
      by_cases hr : 3 ≤ st.round_number
      · rw [submit_quote_exhausted es sid bid ask r chat st hl hf' hr]
      · have hr' : st.round_number < 3 := by omega
        by_cases hq : bid ≤ 0 ∨ ask ≤ 0 ∨ ask < bid
        · rw [submit_quote_invalid es sid bid ask r chat st hl hf' hr' hq]
        · push_neg at hq
          obtain ⟨hb, _, ha⟩ := hq
          cases chat with
          | error m =>
            rw [submit_quote_upstream es sid bid ask r m st hl hf' hr' hb ha] at h
            exact absurd (Except.error.inj h).symm (hne m)
          | ok t =>
            rw [submit_quote_ok es sid bid ask r t st hl hf' hr' hb ha] at h
            simp at h

theorem finalize_error_state (es : EngineState) (sid : Nat) (bid ask : ℚ)
    (r : Option String) (chat : Except String String) (e : EngineError)
    (h : (finalize_round4 es sid bid ask r chat).2 = Except.error e)
    (hne : ∀ m, e ≠ EngineError.UpstreamFailure m) :
    (finalize_round4 es sid bid ask r chat).1 = es := by
  cases hl : lookupSession es.sessions sid with
  | none => rw [finalize_not_found es sid bid ask r chat hl]
  | some st =>
    by_cases hf : st.final_done = true
    · rw [finalize_finalized es sid bid ask r chat st hl hf]
    · have hf' : st.final_done = false := by simpa using hf
      by_cases hq : bid ≤ 0 ∨ ask ≤ 0 ∨ ask < bid
      · rw [finalize_invalid es sid bid ask r chat st hl hf' hq]
      · push_neg at hq
        obtain ⟨hb, _, ha⟩ := hq
        cases chat with
        | error m =>
          rw [finalize_upstream es sid bid ask r m st hl hf' hb ha] at h
          exact absurd (Except.error.inj h).symm (hne m)
        | ok t =>
          rw [finalize_ok es sid bid ask r t st hl hf' hb ha] at h
          simp at h

-- ---------- preservation of the quotes/reports balance ----------

theorem reportsBalanced_start (es : EngineState) (q : String)
    (h : reportsBalanced es) : reportsBalanced (start_session es q).1 := by
  intro sid st hst
  simp only [get_state, start_session, lookupSession] at hst
  by_cases hsid : es.nextId = sid
  · rw [if_pos hsid] at hst
    cases hst
    simp
  · rw [if_neg hsid] at hst
    exact h sid st hst

theorem reportsBalanced_submit (es : EngineState) (sid : Nat) (bid ask : ℚ)
    (r : Option String) (chat : Except String String)
    (h : reportsBalanced es) :
    reportsBalanced (submit_quote es sid bid ask r chat).1 := by
  cases hl : lookupSession es.sessions sid with
  | none => rw [submit_quote_not_found es sid bid ask r chat hl]; exact h
  | some st =>
    by_cases hf : st.final_done = true
    · rw [submit_quote_finalized es sid bid ask r chat st hl hf]; exact h
    · have hf' : st.final_done = false := by simpa using hf
      by_cases hr : 3 ≤ st.round_number
      · rw [submit_quote_exhausted es sid bid ask r chat st hl hf' hr]; exact h
      · have hr' : st.round_number < 3 := by omega
        by_cases hq : bid ≤ 0 ∨ ask ≤ 0 ∨ ask < bid
        · rw [submit_quote_invalid es sid bid ask r chat st hl hf' hr' hq]; exact h
        · push_neg at hq
          obtain ⟨hb, _, ha⟩ := hq
          have hbal := h sid st hl
          cases chat with
          | error m =>
            rw [submit_quote_upstream es sid bid ask r m st hl hf' hr' hb ha]
            intro sid' st' hst'
            simp only [get_state] at hst'
            rw [lookup_setSession] at hst'
            by_cases hs : sid' = sid
            · rw [if_pos hs] at hst'
              cases hst'
              simp [submitUpstreamSession]
              omega
            · rw [if_neg hs] at hst'
              exact h sid' st' hst'
          | ok t =>
            rw [submit_quote_ok es sid bid ask r t st hl hf' hr' hb ha]
            intro sid' st' hst'
            simp only [get_state] at hst'
            rw [lookup_setSession] at hst'
            by_cases hs : sid' = sid
            · rw [if_pos hs] at hst'
              cases hst'
              simp [submitOkSession]
              omega
            · rw [if_neg hs] at hst'
              exact h sid' st' hst'

theorem reportsBalanced_finalize (es : EngineState) (sid : Nat) (bid ask : ℚ)
    (r : Option String) (chat : Except String String)
    (h : reportsBalanced es) :
    reportsBalanced (finalize_round4 es sid bid ask r chat).1 := by
  cases hl : lookupSession es.sessions sid with
  | none => rw [finalize_not_found es sid bid ask r chat hl]; exact h
  | some st =>
    by_cases hf : st.final_done = true
    · rw [finalize_finalized es sid bid ask r chat st hl hf]; exact h
    · have hf' : st.final_done = false := by simpa using hf
      by_cases hq : bid ≤ 0 ∨ ask ≤ 0 ∨ ask < bid
      · rw [finalize_invalid es sid bid ask r chat st hl hf' hq]; exact h
      · push_neg at hq
        obtain ⟨hb, _, ha⟩ := hq
        have hbal := h sid st hl
        cases chat with
        | error m =>
          rw [finalize_upstream es sid bid ask r m st hl hf' hb ha]
          intro sid' st' hst'
          simp only [get_state] at hst'
          rw [lookup_setSession] at hst'
          by_cases hs : sid' = sid
          · rw [if_pos hs] at hst'
            cases hst'
            simp [finalizeUpstreamSession]
            omega
          · rw [if_neg hs] at hst'
            exact h sid' st' hst'
        | ok t =>
          rw [finalize_ok es sid bid ask r t st hl hf' hb ha]
          intro sid' st' hst'
          simp only [get_state] at hst'
          rw [lookup_setSession] at hst'
          by_cases hs : sid' = sid
          · rw [if_pos hs] at hst'
            cases hst'
            simp [finalizeOkSession]
            omega
          · rw [if_neg hs] at hst'
            exact h sid' st' hst'

theorem reachable_balanced (es : EngineState) (h : Reachable es) :
    reportsBalanced es := by
  induction h with
  | init =>
    intro sid st hst
    simp [get_state, initState, lookupSession] at hst
  | start es q _ ih => exact reportsBalanced_start es q ih
  | submit es sid bid ask r chat _ ih =>
    exact reportsBalanced_submit es sid bid ask r chat ih
  | finalize es sid bid ask r chat _ ih =>
    exact reportsBalanced_finalize es sid bid ask r chat ih

-- ---------- preservation of the report content shapes ----------

theorem submitReport_shape (n : Nat) (h1 : 1 ≤ n) (h3 : n ≤ 3) (bid ask : ℚ)
    (t : String) : reportShapeOK (submitReport n bid ask t) := by
  refine ⟨⟨h1, show n ≤ 4 by omega⟩, fun _ => ⟨rfl, rfl, rfl⟩,
    fun h4 => absurd (show n = 4 from h4) (by omega), ?_⟩
  rintro ⟨_, hfin⟩
  exact Bool.noConfusion hfin

theorem finalReport_shape (bid ask : ℚ) (t : String) :
    reportShapeOK (finalReport bid ask t) := by
  refine ⟨⟨show (1 : Nat) ≤ 4 by omega, le_refl 4⟩,
    fun h3 => absurd (show (4 : Nat) ≤ 3 from h3) (by omega),
    fun _ => ⟨rfl, rfl, rfl⟩, ?_⟩
  rintro ⟨hh, _⟩
  exact Bool.noConfusion hh

theorem sessionReportsOK_start (es : EngineState) (q : String)
    (h : sessionReportsOK es) : sessionReportsOK (start_session es q).1 := by
  intro sid st hst
  simp only [get_state, start_session, lookupSession] at hst
  by_cases hsid : es.nextId = sid
  · rw [if_pos hsid] at hst
    cases hst
    intro rep hrep
    simp at hrep
  · rw [if_neg hsid] at hst
    exact h sid st hst

theorem sessionReportsOK_submit (es : EngineState) (sid : Nat) (bid ask : ℚ)
    (r : Option String) (chat : Except String String)
    (h : sessionReportsOK es) :
    sessionReportsOK (submit_quote es sid bid ask r chat).1 := by
  cases hl : lookupSession es.sessions sid with
  | none => rw [submit_quote_not_found es sid bid ask r chat hl]; exact h
  | some st =>
    by_cases hf : st.final_done = true
    · rw [submit_quote_finalized es sid bid ask r chat st hl hf]; exact h
    · have hf' : st.final_done = false := by simpa using hf
      by_cases hr : 3 ≤ st.round_number
      · rw [submit_quote_exhausted es sid bid ask r chat st hl hf' hr]; exact h
      · have hr' : st.round_number < 3 := by omega
        by_cases hq : bid ≤ 0 ∨ ask ≤ 0 ∨ ask < bid
        · rw [submit_quote_invalid es sid bid ask r chat st hl hf' hr' hq]; exact h
        · push_neg at hq
          obtain ⟨hb, _, ha⟩ := hq
          have hold := h sid st hl
          cases chat with
          | error m =>
            rw [submit_quote_upstream es sid bid ask r m st hl hf' hr' hb ha]
            intro sid' st' hst'
            simp only [get_state] at hst'
            rw [lookup_setSession] at hst'
            by_cases hs : sid' = sid
            · rw [if_pos hs] at hst'
              cases hst'
              intro rep hrep
              exact hold rep hrep
            · rw [if_neg hs] at hst'
              exact h sid' st' hst'
          | ok t =>
            rw [submit_quote_ok es sid bid ask r t st hl hf' hr' hb ha]
            intro sid' st' hst'
            simp only [get_state] at hst'
            rw [lookup_setSession] at hst'
            by_cases hs : sid' = sid
            · rw [if_pos hs] at hst'
              cases hst'
              intro rep hrep
              simp only [submitOkSession] at hrep
              rcases List.mem_append.mp hrep with hrep | hrep
              · exact hold rep hrep
              · rcases List.mem_singleton.mp hrep with rfl
                exact submitReport_shape (st.round_number + 1) (by omega)
                  (by omega) bid ask t
            · rw [if_neg hs] at hst'
              exact h sid' st' hst'

theorem sessionReportsOK_finalize (es : EngineState) (sid : Nat) (bid ask : ℚ)
    (r : Option String) (chat : Except String String)
    (h : sessionReportsOK es) :
    sessionReportsOK (finalize_round4 es sid bid ask r chat).1 := by
  cases hl : lookupSession es.sessions sid with
  | none => rw [finalize_not_found es sid bid ask r chat hl]; exact h
  | some st =>
    by_cases hf : st.final_done = true
    · rw [finalize_finalized es sid bid ask r chat st hl hf]; exact h
    · have hf' : st.final_done = false := by simpa using hf
      by_cases hq : bid ≤ 0 ∨ ask ≤ 0 ∨ ask < bid
      · rw [finalize_invalid es sid bid ask r chat st hl hf' hq]; exact h
      · push_neg at hq
        obtain ⟨hb, _, ha⟩ := hq
        have hold := h sid st hl
        cases chat with
        | error m =>
          rw [finalize_upstream es sid bid ask r m st hl hf' hb ha]
          intro sid' st' hst'
          simp only [get_state] at hst'
          rw [lookup_setSession] at hst'
          by_cases hs : sid' = sid
          · rw [if_pos hs] at hst'
            cases hst'
            intro rep hrep
            exact hold rep hrep
          · rw [if_neg hs] at hst'
            exact h sid' st' hst'
        | ok t =>
          rw [finalize_ok es sid bid ask r t st hl hf' hb ha]
          intro sid' st' hst'
          simp only [get_state] at hst'
          rw [lookup_setSession] at hst'
          by_cases hs : sid' = sid
          · rw [if_pos hs] at hst'
            cases hst'
            intro rep hrep
            simp only [finalizeOkSession] at hrep
            rcases List.mem_append.mp hrep with hrep | hrep
            · exact hold rep hrep
            · rcases List.mem_singleton.mp hrep with rfl
              exact finalReport_shape bid ask t
          · rw [if_neg hs] at hst'
            exact h sid' st' hst'

theorem reachable_reportsOK (es : EngineState) (h : Reachable es) :
    sessionReportsOK es := by
  induction h with
  | init =>
    intro sid st hst
    simp [get_state, initState, lookupSession] at hst
  | start es q _ ih => exact sessionReportsOK_start es q ih
  | submit es sid bid ask r chat _ ih =>
    exact sessionReportsOK_submit es sid bid ask r chat ih
  | finalize es sid bid ask r chat _ ih =>
    exact sessionReportsOK_finalize es sid bid ask r chat ih

-- ---------- claims ----------

/-- C7: for all bid and ask, mid(bid, ask) = (bid + ask)/2,
width(bid, ask) = max(0, ask − bid), and width_pct_of_bid(bid, width) =
100·width/bid when bid > 0 and 0 otherwise; hence for every valid quote
with 0 < bid ≤ ask, width ≥ 0 and mid lies in [bid, ask]. -/
theorem c7_metrics : ∀ bid ask width : ℚ,
    _calc_mid bid ask = (bid + ask) / 2 ∧
    _calc_width bid ask = max 0 (ask - bid) ∧
    (0 < bid → _calc_width_pct_of_bid bid width = 100 * width / bid) ∧
    (bid ≤ 0 → _calc_width_pct_of_bid bid width = 0) ∧
    (0 < bid → bid ≤ ask →
      0 ≤ _calc_width bid ask ∧ bid ≤ _calc_mid bid ask ∧
        _calc_mid bid ask ≤ ask) := by
  intro bid ask width
  refine ⟨rfl, rfl, ?_, ?_, ?_⟩
  · intro hb
    unfold _calc_width_pct_of_bid
    rw [if_neg (not_le.mpr hb)]
  · intro hb
    unfold _calc_width_pct_of_bid
    rw [if_pos hb]
  · intro hb ha
    refine ⟨le_max_left 0 _, ?_, ?_⟩
    · unfold _calc_mid; linarith
    · unfold _calc_mid; linarith

/-- Witness for C7 at bid = 1, ask = 3, width = 2 (and bid = -1 for the
degenerate branch). -/
theorem c7_witness :
    _calc_width_pct_of_bid 1 2 = 100 * 2 / 1 ∧
    _calc_width_pct_of_bid (-1) 2 = 0 ∧
    0 ≤ _calc_width 1 3 ∧ 1 ≤ _calc_mid 1 3 ∧ _calc_mid 1 3 ≤ 3 := by
  have hA := c7_metrics 1 3 2
  have hB := c7_metrics (-1) 3 2
  obtain ⟨hw, hm1, hm2⟩ := hA.2.2.2.2 (by norm_num) (by norm_num)
  exact ⟨hA.2.2.1 (by norm_num), hB.2.2.2.1 (by norm_num), hw, hm1, hm2⟩

/-- C10: start_session succeeds for every question string, including the
empty string: it creates and stores a session whose question equals the
input verbatim, with round_number 0, empty quotes and reports, and
terminal flag false, and returns that session. -/
theorem c10_start_session : ∀ (es : EngineState) (q : String),
    (start_session es q).2.question = q ∧
    (start_session es q).2.round_number = 0 ∧
    (start_session es q).2.quotes = [] ∧
    (start_session es q).2.reports = [] ∧
    (start_session es q).2.final_done = false ∧
    get_state (start_session es q).1 (start_session es q).2.session_id =
      some (start_session es q).2 := by
  intro es q
  refine ⟨rfl, rfl, rfl, rfl, rfl, ?_⟩
  simp [get_state, start_session, lookupSession]

/-- C3 counterexample: on a finalized stored session with the invalid
quote bid = -1, ask = 1, both operations fail with AlreadyFinalized, not
InvalidQuote (the terminal check precedes quote validation), refuting
the claim for every stored session. -/
theorem c3_counterexample :
    ((-1 : ℚ) ≤ 0) ∧
    (get_state esF 0).map SessionState.final_done = some true ∧
    (submit_quote esF 0 (-1) 1 none (Except.ok "x")).2 =
      Except.error EngineError.AlreadyFinalized ∧
    (finalize_round4 esF 0 (-1) 1 none (Except.ok "x")).2 =
      Except.error EngineError.AlreadyFinalized ∧
    (Except.error EngineError.AlreadyFinalized :
        Except EngineError RoundReport) ≠
      Except.error EngineError.InvalidQuote := by
  refine ⟨by norm_num, rfl, rfl, rfl, ?_⟩
  intro h
  exact EngineError.noConfusion (Except.error.inj h)

/-- C3 (amended): for every stored session that is not finalized (and,
for submit_quote, has round_number < 3) and all bid, ask with ask < bid
or bid ≤ 0 or ask ≤ 0, submit_quote and finalize_round4 both fail with
InvalidQuote and the engine state, hence the session's round_number,
quotes and reports, is unmodified. -/
theorem c3_invalid_quote (es : EngineState) (sid : Nat) (st : SessionState)
    (bid ask : ℚ) (r : Option String) (chat : Except String String)
    (h : get_state es sid = some st) (hf : st.final_done = false)
    (hq : ask < bid ∨ bid ≤ 0 ∨ ask ≤ 0) :
    (st.round_number < 3 →
      submit_quote es sid bid ask r chat =
        (es, Except.error EngineError.InvalidQuote)) ∧
    finalize_round4 es sid bid ask r chat =
      (es, Except.error EngineError.InvalidQuote) := by
  have hq' : bid ≤ 0 ∨ ask ≤ 0 ∨ ask < bid := by tauto
  exact ⟨fun hr => submit_quote_invalid es sid bid ask r chat st h hf hr hq',
    finalize_invalid es sid bid ask r chat st h hf hq'⟩

/-- Witness for C3 on the fresh session with bid = -1, ask = 1. -/
theorem c3_witness :
    submit_quote es1 0 (-1) 1 none (Except.ok "x") =
      (es1, Except.error EngineError.InvalidQuote) ∧
    finalize_round4 es1 0 (-1) 1 none (Except.ok "x") =
      (es1, Except.error EngineError.InvalidQuote) := by
  have h := c3_invalid_quote es1 0 ⟨0, "q", 0, [], [], false⟩ (-1) 1 none
    (Except.ok "x") rfl rfl (Or.inr (Or.inl (by norm_num)))
  exact ⟨h.1 (by norm_num), h.2⟩

/-- C6: for every known, non-terminal session and every valid quote
(0 < bid ≤ ask), finalize_round4 succeeds regardless of the current
round_number (no hypothesis on it, and no RoundExhausted outcome is
possible for any input), sets round_number to 4, and returns a report
with round_index 4. -/
theorem c6_finalize_any_round :
    (∀ (es : EngineState) (sid : Nat) (bid ask : ℚ) (r : Option String)
        (chat : Except String String),
      (finalize_round4 es sid bid ask r chat).2 ≠
        Except.error EngineError.RoundExhausted) ∧
    (∀ (es : EngineState) (sid : Nat) (st : SessionState) (bid ask : ℚ)
        (r : Option String) (t : String),
      get_state es sid = some st → st.final_done = false →
      0 < bid → bid ≤ ask →
      finalize_round4 es sid bid ask r (Except.ok t) =
        ({ es with sessions :=
            setSession es.sessions sid (finalizeOkSession st bid ask r t) },
         Except.ok (finalReport bid ask t)) ∧
      (finalReport bid ask t).round_index = 4 ∧
      (finalizeOkSession st bid ask r t).round_number = 4) := by
  constructor
  · intro es sid bid ask r chat h
    cases hl : lookupSession es.sessions sid with
    | none =>
      rw [finalize_not_found es sid bid ask r chat hl] at h
      exact EngineError.noConfusion (Except.error.inj h)
    | some st =>
      by_cases hf : st.final_done = true
      · rw [finalize_finalized es sid bid ask r chat st hl hf] at h
        exact EngineError.noConfusion (Except.error.inj h)
      · have hf' : st.final_done = false := by simpa using hf
        by_cases hq : bid ≤ 0 ∨ ask ≤ 0 ∨ ask < bid
        · rw [finalize_invalid es sid bid ask r chat st hl hf' hq] at h
          exact EngineError.noConfusion (Except.error.inj h)
        · push_neg at hq
          obtain ⟨hb, _, ha⟩ := hq
          cases chat with
          | error m =>
            rw [finalize_upstream es sid bid ask r m st hl hf' hb ha] at h
            exact EngineError.noConfusion (Except.error.inj h)
          | ok t =>
            rw [finalize_ok es sid bid ask r t st hl hf' hb ha] at h
            simp at h
  · intro es sid st bid ask r t h hf hb ha
    exact ⟨finalize_ok es sid bid ask r t st h hf hb ha, rfl, rfl⟩

/-- Witness for C6: finalizing the fresh session at round 0, without any
of rounds 1-3 having happened. -/
theorem c6_witness :
    (finalize_round4 initState 0 1 2 none (Except.ok "x")).2 ≠
      Except.error EngineError.RoundExhausted ∧
    finalize_round4 es1 0 2 2 none (Except.ok "r") =
      ({ es1 with sessions :=
          setSession es1.sessions 0 (finalizeOkSession st0 2 2 none "r") },
       Except.ok (finalReport 2 2 "r")) ∧
    (finalReport 2 2 "r").round_index = 4 ∧
    (finalizeOkSession st0 2 2 none "r").round_number = 4 := by
  refine ⟨c6_finalize_any_round.1 initState 0 1 2 none (Except.ok "x"), ?_⟩
  exact c6_finalize_any_round.2 es1 0 st0 2 2 none "r" rfl rfl
    (by norm_num) (by norm_num)

/-- C4: after finalize_round4 succeeds, every subsequent submit_quote or
finalize_round4 call on that session fails with AlreadyFinalized and
never mutates the session, while get_state still succeeds and returns
the state containing the round-4 final report. -/
theorem c4_finalize_terminal (es : EngineState) (sid : Nat) (bid ask : ℚ)
    (r : Option String) (chat : Except String String) (rep : RoundReport)
    (h : (finalize_round4 es sid bid ask r chat).2 = Except.ok rep) :
    alwaysAlreadyFinalized (finalize_round4 es sid bid ask r chat).1 sid ∧
    stateHasFinalReport (finalize_round4 es sid bid ask r chat).1 sid rep ∧
    rep.round_index = 4 ∧ rep.final_report.isSome = true := by
  cases hl : lookupSession es.sessions sid with
  | none =>
    rw [finalize_not_found es sid bid ask r chat hl] at h
    simp at h
  | some st =>
    by_cases hf : st.final_done = true
    · rw [finalize_finalized es sid bid ask r chat st hl hf] at h
      simp at h
    · have hf' : st.final_done = false := by simpa using hf
      by_cases hq : bid ≤ 0 ∨ ask ≤ 0 ∨ ask < bid
      · rw [finalize_invalid es sid bid ask r chat st hl hf' hq] at h
        simp at h
      · push_neg at hq
        obtain ⟨hb, _, ha⟩ := hq
        cases chat with
        | error m =>
          rw [finalize_upstream es sid bid ask r m st hl hf' hb ha] at h
          simp at h
        | ok t =>
          have heq := finalize_ok es sid bid ask r t st hl hf' hb ha
          rw [heq] at h
          obtain rfl : rep = finalReport bid ask t := (Except.ok.inj h).symm
          have hE : (finalize_round4 es sid bid ask r (Except.ok t)).1 =
              { es with sessions :=
                setSession es.sessions sid (finalizeOkSession st bid ask r t) } := by
            rw [heq]
          have hl2 : lookupSession
              (setSession es.sessions sid (finalizeOkSession st bid ask r t)) sid =
              some (finalizeOkSession st bid ask r t) := by
            rw [lookup_setSession]; simp
          rw [hE]
          refine ⟨?_, ?_, rfl, rfl⟩
          · intro bid2 ask2 r2 chat2
            exact ⟨submit_quote_finalized _ sid bid2 ask2 r2 chat2 _ hl2 rfl,
              finalize_finalized _ sid bid2 ask2 r2 chat2 _ hl2 rfl⟩
          · refine ⟨finalizeOkSession st bid ask r t, hl2, rfl, ?_⟩
            simp [finalizeOkSession]

/-- Witness for C4: the fresh session finalized with quote 2/2. -/
theorem c4_witness :
    alwaysAlreadyFinalized esF 0 ∧
    stateHasFinalReport esF 0 (finalReport 2 2 "r") ∧
    (finalReport 2 2 "r").round_index = 4 ∧
    (finalReport 2 2 "r").final_report.isSome = true :=
  c4_finalize_terminal es1 0 2 2 none (Except.ok "r") (finalReport 2 2 "r") rfl

/-- C1 counterexample: an UpstreamFailure in submit_quote leaves the
session mutated — round_number advanced from 0 to 1 and a quote appended
with no matching report — so a reachable state violates
len(quotes) == len(reports). -/
theorem c1_counterexample :
    (submit_quote es1 0 10 20 none (Except.error "boom")).2 =
      Except.error (EngineError.UpstreamFailure "boom") ∧
    (get_state es1 0).map SessionState.round_number = some 0 ∧
    (get_state es1 0).map (fun st => st.quotes.length) = some 0 ∧
    (get_state (submit_quote es1 0 10 20 none (Except.error "boom")).1 0).map
        SessionState.round_number = some 1 ∧
    (get_state (submit_quote es1 0 10 20 none (Except.error "boom")).1 0).map
        (fun st => st.quotes.length) = some 1 ∧
    (get_state (submit_quote es1 0 10 20 none (Except.error "boom")).1 0).map
        (fun st => st.reports.length) = some 0 :=
  ⟨rfl, rfl, rfl, rfl, rfl, rfl⟩

/-- C1 (amended): every call of submit_quote or finalize_round4 that
fails with NotFound, AlreadyFinalized, RoundExhausted or InvalidQuote
leaves the engine state exactly as it was (this does not extend to
UpstreamFailure, which strikes after the round and quote mutations);
consequently every reachable session state satisfies
len(reports) ≤ len(quotes). -/
theorem c1_errors_preserve_state :
    (∀ (es : EngineState) (sid : Nat) (bid ask : ℚ) (r : Option String)
        (chat : Except String String) (e : EngineError),
      (submit_quote es sid bid ask r chat).2 = Except.error e →
      (∀ m, e ≠ EngineError.UpstreamFailure m) →
      (submit_quote es sid bid ask r chat).1 = es) ∧
    (∀ (es : EngineState) (sid : Nat) (bid ask : ℚ) (r : Option String)
        (chat : Except String String) (e : EngineError),
      (finalize_round4 es sid bid ask r chat).2 = Except.error e →
      (∀ m, e ≠ EngineError.UpstreamFailure m) →
      (finalize_round4 es sid bid ask r chat).1 = es) ∧
    (∀ es : EngineState, Reachable es → reportsBalanced es) :=
  ⟨submit_error_state, finalize_error_state, reachable_balanced⟩

/-- Witness for C1: a NotFound failure on the empty engine leaves it
unchanged, and the one-session reachable state is balanced. -/
theorem c1_witness :
    (submit_quote initState 0 1 2 none (Except.ok "x")).1 = initState ∧
    (finalize_round4 initState 0 1 2 none (Except.ok "x")).1 = initState ∧
    reportsBalanced es1 :=
  ⟨c1_errors_preserve_state.1 initState 0 1 2 none (Except.ok "x")
      EngineError.NotFound rfl (fun _ h => EngineError.noConfusion h),
   c1_errors_preserve_state.2.1 initState 0 1 2 none (Except.ok "x")
      EngineError.NotFound rfl (fun _ h => EngineError.noConfusion h),
   c1_errors_preserve_state.2.2 es1 (Reachable.start initState "q" Reachable.init)⟩

/-- C9: in every reachable session state, every report appended by
submit_quote (round_index 1-3) has its final_report field empty, every
report appended by finalize_round4 (round_index 4) has its hint and
coaching fields empty, and no report ever has both content shapes
populated. -/
theorem c9_report_content_shapes (es : EngineState) (h : Reachable es) :
    sessionReportsOK es :=
  reachable_reportsOK es h

/-- Witness for C9: the reachable state after one successful quote. -/
theorem c9_witness : sessionReportsOK es2 :=
  c9_report_content_shapes es2
    (Reachable.submit es1 0 10 20 none (Except.ok "Hint: a\nCoaching: b")
      (Reachable.start initState "q" Reachable.init))

/-- C2 counterexample: "Hint:\nfoo" contains a hint label line but no
coaching label, so the code takes the whole-text fallback and returns
("Hint:\nfoo", "") where the claimed line scan yields ("foo", "");
moreover the non-empty input "Hint: a\nCoaching: b" yields both an empty
hint and an empty coaching. -/
theorem c2_counterexample :
    _split_hint_and_coaching "Hint:\nfoo" = ("Hint:\nfoo", "") ∧
    specSplit "Hint:\nfoo" = ("foo", "") ∧
    (("Hint:\nfoo", "") : String × String) ≠ ("foo", "") ∧
    _split_hint_and_coaching "Hint: a\nCoaching: b" = ("", "") ∧
    ("Hint: a\nCoaching: b" : String) ≠ "" := by
  exact ⟨by decide, by decide, by decide, by decide, by decide⟩

/-- C2 (amended): the hint/coaching split performs the line-by-line
bucket scan only when both "hint:" and "coaching:" occur (case-
insensitively) as substrings of the text; whenever either label is
absent — not only when both are — it returns the entire trimmed text as
the hint with an empty coaching string, and in that fallback case an
input containing a non-whitespace character yields a non-empty hint
(in the bucketed case both components can be empty). -/
theorem c2_split_behaviour : ∀ content : String,
    (bothLabels content = false →
      _split_hint_and_coaching content =
        (String.mk (pystrip content.toList), "")) ∧
    (bothLabels content = true →
      _split_hint_and_coaching content = specSplit content) ∧
    (bothLabels content = false →
      (∃ c ∈ content.toList, c.isWhitespace = false) →
      (_split_hint_and_coaching content).1 ≠ "") := by
  intro content
  refine ⟨?_, ?_, ?_⟩
  · intro hb
    unfold _split_hint_and_coaching
    rw [hb]
    simp
  · intro hb
    unfold _split_hint_and_coaching specSplit
    rw [hb]
    simp only [if_true]
    rw [splitLoop_eq_specScan]
    simp
  · intro hb hex
    obtain ⟨c, hc, hws⟩ := hex
    unfold _split_hint_and_coaching
    rw [hb]
    simp only [Bool.false_eq_true, if_false]
    exact stringMk_ne_empty _ (pystrip_ne_nil content.toList c hc hws)

/-- Witness for C2 on the label-free input "hello". -/
theorem c2_witness :
    _split_hint_and_coaching "hello" = ("hello", "") ∧
    (_split_hint_and_coaching "hello").1 ≠ "" := by
  have h := c2_split_behaviour "hello"
  have hb : bothLabels "hello" = false := by decide
  refine ⟨?_, h.2.2 hb ⟨'h', by decide, by decide⟩⟩
  rw [h.1 hb]
  decide

theorem extract_some (content : String) (i : Nat)
    (h : findSubstrIdx finalKey (lowerList content.toList) = some i) :
    _extract_final_report content = String.mk (pystrip (content.toList.drop i)) := by
  unfold _extract_final_report
  rw [h]

theorem extract_none (content : String)
    (h : findSubstrIdx finalKey (lowerList content.toList) = none) :
    _extract_final_report content = String.mk (pystrip content.toList) := by
  unfold _extract_final_report
  rw [h]

/-- C8: for every input text, the final-report extractor returns the
substring starting at the first case-insensitive occurrence of the
literal "Final Report:" through the end of the text, trimmed; if no such
occurrence exists, it returns the entire text trimmed; it never fails
and never returns an empty string for input containing non-whitespace. -/
theorem c8_extract_final_report : ∀ content : String,
    (∀ i : Nat,
      finalKey.isPrefixOf ((lowerList content.toList).drop i) = true →
      (∀ j, j < i →
        finalKey.isPrefixOf ((lowerList content.toList).drop j) = false) →
      _extract_final_report content =
        String.mk (pystrip (content.toList.drop i))) ∧
    ((∀ j : Nat,
        finalKey.isPrefixOf ((lowerList content.toList).drop j) = false) →
      _extract_final_report content = String.mk (pystrip content.toList)) ∧
    ((∃ c ∈ content.toList, c.isWhitespace = false) →
      _extract_final_report content ≠ "") := by
  intro content
  refine ⟨?_, ?_, ?_⟩
  · intro i hocc hmin
    cases hfi : findSubstrIdx finalKey (lowerList content.toList) with
    | none =>
      exfalso
      have hnone := findSubstrIdx_none_spec finalKey (by decide)
        (lowerList content.toList) hfi i
      rw [hnone] at hocc
      exact Bool.noConfusion hocc
    | some i' =>
      obtain ⟨h1, h2⟩ :=
        findSubstrIdx_some_spec finalKey (lowerList content.toList) i' hfi
      have hii : i' = i := by
        rcases Nat.lt_trichotomy i' i with hlt | heq | hgt
        · have hc := hmin i' hlt
          rw [hc] at h1
          exact Bool.noConfusion h1
        · exact heq
        · have hc := h2 i hgt
          rw [hc] at hocc
          exact Bool.noConfusion hocc
      rw [extract_some content i' hfi, hii]
  · intro hnone
    cases hfi : findSubstrIdx finalKey (lowerList content.toList) with
    | none => exact extract_none content hfi
    | some i' =>
      exfalso
      have h1 :=
        (findSubstrIdx_some_spec finalKey (lowerList content.toList) i' hfi).1
      rw [hnone i'] at h1
      exact Bool.noConfusion h1
  · intro hex
    obtain ⟨c, hc, hws⟩ := hex
    cases hfi : findSubstrIdx finalKey (lowerList content.toList) with
    | none =>
      rw [extract_none content hfi]
      exact stringMk_ne_empty _ (pystrip_ne_nil content.toList c hc hws)
    | some i =>
      rw [extract_some content i hfi]
      have h1 :=
        (findSubstrIdx_some_spec finalKey (lowerList content.toList) i hfi).1
      have h2 : finalKey <+: (lowerList content.toList).drop i :=
        List.isPrefixOf_iff_prefix.mp h1
      obtain ⟨tail, htail⟩ := h2
      have hmap : (lowerList content.toList).drop i =
          lowerList (content.toList.drop i) := by
        simp [lowerList, List.map_drop]
      rw [hmap] at htail
      cases hd : content.toList.drop i with
      | nil =>
        rw [hd] at htail
        simp [lowerList, finalKey] at htail
      | cons c0 rest =>
        rw [hd] at htail
        have hh := congrArg List.head? htail
        simp [lowerList, finalKey] at hh
        have hc0 : c0.toLower = 'f' := hh.symm
        have hcws : c0.isWhitespace = false := by
          cases hbw : c0.isWhitespace with
          | false => rfl
          | true =>
            exfalso
            have h4 : ((c0 = ' ' ∨ c0 = '\t') ∨ c0 = '\x0d') ∨ c0 = '\n' := by
              simpa [Char.isWhitespace] using hbw
            rcases h4 with ((h | h) | h) | h <;>
              (rw [h] at hc0; exact absurd hc0 (by decide))
        exact stringMk_ne_empty _
          (pystrip_ne_nil (c0 :: rest) c0 (List.mem_cons_self c0 rest) hcws)

/-- Witness for C8: the marker sits at index 2 of "a Final Report: x";
"hi" has no marker; " hi " has no marker but non-whitespace content. -/
theorem c8_witness :
    _extract_final_report "a Final Report: x" = "Final Report: x" ∧
    _extract_final_report "hi" = "hi" ∧
    _extract_final_report " hi " ≠ "" := by
  have hA := (c8_extract_final_report "a Final Report: x").1 2 (by decide)
    (by decide)
  have hnoj : ∀ j : Nat,
      finalKey.isPrefixOf ((lowerList "hi".toList).drop j) = false := by
    intro j
    match j with
    | 0 => decide
    | 1 => decide
    | n + 2 =>
      have hlen : (lowerList "hi".toList).length = 2 := rfl
      have hdrop : (lowerList "hi".toList).drop (n + 2) = [] :=
        List.drop_eq_nil_of_le (by rw [hlen]; omega)
      rw [hdrop]
      decide
  have hB := (c8_extract_final_report "hi").2.1 hnoj
  have hC := (c8_extract_final_report " hi ").2.2 ⟨'h', by decide, by decide⟩
  refine ⟨?_, ?_, hC⟩
  · rw [hA]; decide
  · rw [hB]; decide

/-- One successful submit_quote step, phrased through get_state so that
steps chain. -/
theorem submit_step (es : EngineState) (sid : Nat) (st : SessionState)
    (bid ask : ℚ) (r : Option String) (t : String)
    (h : get_state es sid = some st) (hf : st.final_done = false)
    (hr : st.round_number < 3) (hb : 0 < bid) (ha : bid ≤ ask) :
    (submit_quote es sid bid ask r (Except.ok t)).2 =
      Except.ok (submitReport (st.round_number + 1) bid ask t) ∧
    get_state (submit_quote es sid bid ask r (Except.ok t)).1 sid =
      some (submitOkSession st bid ask r t) ∧
    (submitOkSession st bid ask r t).round_number = st.round_number + 1 ∧
    (submitOkSession st bid ask r t).final_done = st.final_done := by
  have e := submit_quote_ok es sid bid ask r t st h hf hr hb ha
  rw [e]
  refine ⟨rfl, ?_, rfl, rfl⟩
  show lookupSession (setSession es.sessions sid (submitOkSession st bid ask r t)) sid =
    some (submitOkSession st bid ask r t)
  rw [lookup_setSession]
  simp

/-- C5: starting a fresh session and then calling submit_quote three
times successively with valid quotes yields reports with round_index
1, 2, 3 in that order, the session's round_number rising by 1 on each
success; a fourth submit_quote on the same session fails with
RoundExhausted because round_number ≥ 3. -/
theorem c5_round_sequencing (es : EngineState) (q : String)
    (b1 a1 b2 a2 b3 a3 b4 a4 : ℚ) (r1 r2 r3 r4 : Option String)
    (t1 t2 t3 : String) (chat4 : Except String String)
    (hb1 : 0 < b1) (ha1 : b1 ≤ a1) (hb2 : 0 < b2) (ha2 : b2 ≤ a2)
    (hb3 : 0 < b3) (ha3 : b3 ≤ a3) :
    c5chain es q b1 a1 b2 a2 b3 a3 b4 a4 r1 r2 r3 r4 t1 t2 t3 chat4 =
      (Except.ok (submitReport 1 b1 a1 t1),
       Except.ok (submitReport 2 b2 a2 t2),
       Except.ok (submitReport 3 b3 a3 t3),
       Except.error EngineError.RoundExhausted,
       some 1, some 2, some 3) ∧
    (submitReport 1 b1 a1 t1).round_index = 1 ∧
    (submitReport 2 b2 a2 t2).round_index = 2 ∧
    (submitReport 3 b3 a3 t3).round_index = 3 := by
  refine ⟨?_, rfl, rfl, rfl⟩
  have h0 : get_state (start_session es q).1 ((start_session es q).2.session_id) =
      some (⟨es.nextId, q, 0, [], [], false⟩ : SessionState) := by
    simp [get_state, start_session, lookupSession]
  obtain ⟨q1, g1, rn1, fd1⟩ := submit_step (start_session es q).1
    ((start_session es q).2.session_id)
    (⟨es.nextId, q, 0, [], [], false⟩ : SessionState) b1 a1 r1 t1 h0 rfl
    (show (0 : Nat) < 3 by norm_num) hb1 ha1
  obtain ⟨q2, g2, rn2, fd2⟩ := submit_step _ _ _ b2 a2 r2 t2 g1 rfl
    (show (0 : Nat) + 1 < 3 by norm_num) hb2 ha2
  obtain ⟨q3, g3, rn3, fd3⟩ := submit_step _ _ _ b3 a3 r3 t3 g2 rfl
    (show (0 : Nat) + 1 + 1 < 3 by norm_num) hb3 ha3
  have q4 := submit_quote_exhausted _ ((start_session es q).2.session_id)
    b4 a4 r4 chat4 _ g3 rfl (show (3 : Nat) ≤ 0 + 1 + 1 + 1 by norm_num)
  simp only [c5chain]
  simp only [Prod.mk.injEq]
  refine ⟨q1, q2, q3, ?_, ?_, ?_, ?_⟩
  · rw [q4]
  · rw [g1]; rfl
  · rw [g2]; rfl
  · rw [g3]; rfl

/-- Witness for C5 with quotes 1/2 on a fresh engine. -/
theorem c5_witness :
    c5chain initState "q" 1 2 1 2 1 2 1 1 none none none none
        "x" "y" "z" (Except.ok "w") =
      (Except.ok (submitReport 1 1 2 "x"),
       Except.ok (submitReport 2 1 2 "y"),
       Except.ok (submitReport 3 1 2 "z"),
       Except.error EngineError.RoundExhausted,
       some 1, some 2, some 3) ∧
    (submitReport 1 1 2 "x").round_index = 1 ∧
    (submitReport 2 1 2 "y").round_index = 2 ∧
    (submitReport 3 1 2 "z").round_index = 3 :=
  c5_round_sequencing initState "q" 1 2 1 2 1 2 1 1 none none none none
    "x" "y" "z" (Except.ok "w") (by norm_num) (by norm_num) (by norm_num)
    (by norm_num) (by norm_num) (by norm_num)

end Fermi
